import Mathlib

/-!
Verification of the tracing JIT of the rapidus VM (src/src/jit.rs, src/src/vm.rs)
against its natural-language specification.

The Rust code is shallowly embedded: pure fragments become Lean functions,
the mutable `TracingJit` / VM state becomes explicit state passing, fallible
code returns `Option` / `Except`.  LLVM itself is not modelled: LLVM value and
basic-block references become opaque `Nat` tokens, the success of IR emission
is a Boolean oracle parameter, and native function pointers become explicit
Lean functions passed as parameters.

The file has two parts: all definitions (the embedding), then all theorems.
-/

namespace Rapidus

/-! ## Opcode bytes

The constants `END` .. `RETURN` are exactly the bytes declared in
src/src/vm.rs lines 256-286 (`CONSTRUCT` is the byte vm.rs names `CONSTRACT`).
-/

def END : Nat := 0x00
def CREATE_CONTEXT : Nat := 0x01
def CONSTRUCT : Nat := 0x02
def CREATE_OBJECT : Nat := 0x03
def PUSH_INT8 : Nat := 0x04
def PUSH_INT32 : Nat := 0x05
def PUSH_FALSE : Nat := 0x06
def PUSH_TRUE : Nat := 0x07
def PUSH_CONST : Nat := 0x08
def PUSH_THIS : Nat := 0x09
def ADD : Nat := 0x0a
def SUB : Nat := 0x0b
def MUL : Nat := 0x0c
def DIV : Nat := 0x0d
def REM : Nat := 0x0e
def LT : Nat := 0x0f
def GT : Nat := 0x10
def LE : Nat := 0x11
def GE : Nat := 0x12
def EQ : Nat := 0x13
def NE : Nat := 0x14
def GET_MEMBER : Nat := 0x15
def SET_MEMBER : Nat := 0x16
def GET_GLOBAL : Nat := 0x17
def SET_GLOBAL : Nat := 0x18
def GET_LOCAL : Nat := 0x19
def SET_LOCAL : Nat := 0x1a
def JMP_IF_FALSE : Nat := 0x1b
def JMP : Nat := 0x1c
def CALL : Nat := 0x1d
def RETURN : Nat := 0x1e

/-- Modelled from the spec: src/src/jit.rs imports the opcodes `SEQ`, `SNE`,
`NEG`, `GET_ARG_LOCAL`, `SET_ARG_LOCAL`, `PUSH_ARGUMENTS`, `ASG_FREST_PARAM`
and `CREATE_ARRAY` from `vm`, but the vm.rs present under src/ does not declare
them.  The spec (§3) lists them in the opcode alphabet without fixing byte
values; they are assigned fresh bytes, distinct from each other and from the
declared ones. -/
def SEQ : Nat := 0x1f
def SNE : Nat := 0x20
def NEG : Nat := 0x21
def GET_ARG_LOCAL : Nat := 0x22
def SET_ARG_LOCAL : Nat := 0x23
def PUSH_ARGUMENTS : Nat := 0x24
def ASG_FREST_PARAM : Nat := 0x25
def CREATE_ARRAY : Nat := 0x26

/-- jit.rs line 22. -/
def MAX_FUNCTION_PARAMS : Nat := 3

/-! ## Byte readers

The `get_int32` macro (jit.rs lines 52-60 and vm.rs lines 136-144) assembles
`(b[pc+3] << 24) + (b[pc+2] << 16) + (b[pc+1] << 8) + b[pc]`.  The byte
buffer is a `Vec<u8>`; out-of-range indexing, which panics in Rust, is
modelled by a default byte of 0. -/
def get_int32 (insts : List Nat) (pc : Nat) : Nat :=
  insts.getD (pc + 3) 0 * 16777216 + insts.getD (pc + 2) 0 * 65536 +
    insts.getD (pc + 1) 0 * 256 + insts.getD pc 0

/-- Reinterpretation of a 32-bit value as a signed i32 (the `$ty = i32`
instantiation of `get_int32`, used for jump offsets). -/
def as_i32 (n : Nat) : Int :=
  if n % 4294967296 < 2147483648 then ((n % 4294967296 : Nat) : Int)
  else ((n % 4294967296 : Nat) : Int) - 4294967296

/-! ## Values and types -/

/-- `vm::Value` (src/src/vm.rs lines 10-21).  The `Rc<RefCell<HashMap>>`
payloads (the captured-variable maps of functions and the field maps of
objects) are irrelevant to every claim and are elided: `Function` keeps its
entry pc and `Object` an identifying token. -/
inductive Value where
  | Undefined : Value
  | Bool (b : Bool) : Value
  | Number (n : Float) : Value
  | String (s : String) : Value
  | Function (pos : Nat) : Value
  | NeedThis : Value
  | WithThis : Value
  | EmbeddedFunction (n : Nat) : Value
  | Object (oid : Nat) : Value

/-- `jit::ValueType` (src/src/jit.rs lines 24-29). -/
inductive ValueType where
  | Number : ValueType
  | String : ValueType
  | Bool : ValueType
  deriving DecidableEq

/-- The LLVM types that `CastIntoLLVMType::to_llvmty` can produce
(src/src/jit.rs lines 35-43). -/
inductive LLVMTy where
  | double : LLVMTy
  | i8ptr : LLVMTy
  | i1 : LLVMTy
  deriving DecidableEq

/-- `CastIntoLLVMType::to_llvmty` (src/src/jit.rs lines 35-43). -/
def to_llvmty : ValueType → LLVMTy
  | ValueType.Number => LLVMTy.double
  | ValueType.String => LLVMTy.i8ptr
  | ValueType.Bool => LLVMTy.i1

/-- Whether a `vm::Value` is the `Number` variant (the pattern tested by the
marshalling matches in jit.rs). -/
def isNumber : Value → Bool
  | Value.Number _ => true
  | _ => false

/-- The `ValueType` a `Value` carries across the JIT boundary, when it has
one (used only to state theorems; not part of the source). -/
def valueTypeOf : Value → Option ValueType
  | Value.Number _ => some ValueType.Number
  | Value.Bool _ => some ValueType.Bool
  | Value.String _ => some ValueType.String
  | _ => none

/-! ## VM state and the loop shim -/

/-- Modelled from the spec: `vm::VMState` is referenced by jit.rs but absent
from the vm.rs under src/.  Per spec §4.7 the loop shim reads and writes
interpreter stack slots `stack[bp+id]` and `stack[lp+id]` and the loop-header
pc is `vm_state.pc`.  The interpreter value stack is modelled as a total map
from slot index to `Value`. -/
structure VMState where
  stack : Nat → Value
  bp : Nat
  lp : Nat
  pc : Nat

/-- The type of a compiled loop body: `fn(*mut f64, *mut f64) -> i32`.  The
native code may rewrite the two packed arrays in place and returns the resume
pc; it is modelled as a function from the two marshalled arrays to the
returned i32 and the two arrays' final contents. -/
def NativeLoop : Type := List Float → List Float → Int × List Float × List Float

/-- The marshalling loops of `run_loop_llvm_func` (src/src/jit.rs lines
1444-1455): each named slot must hold a `Number`, whose payload is pushed;
any other variant aborts with `None`. -/
def marshal_vars (stack : Nat → Value) (base : Nat) : List Nat → Option (List Float)
  | [] => some []
  | id :: rest =>
    match stack (base + id) with
    | Value.Number f => (marshal_vars stack base rest).map (fun l => f :: l)
    | _ => none

/-- The write-back loops of `run_loop_llvm_func` (src/src/jit.rs lines
1464-1469): slot `base + id` receives `Number` of the corresponding array
element. -/
def write_back (stack : Nat → Value) (base : Nat) :
    List Nat → List Float → (Nat → Value)
  | id :: ids, f :: fs =>
    write_back (fun k => if k = base + id then Value.Number f else stack k) base ids fs
  | _, _ => stack

/-- `run_loop_llvm_func` (src/src/jit.rs lines 1435-1472).  The `&mut VMState`
is made explicit: the result carries the (possibly updated) state, returned
untouched on the `None` paths, which in the source return before any write. -/
def run_loop_llvm_func (f : NativeLoop) (vm : VMState)
    (arg_vars local_vars : List Nat) : Option Int × VMState :=
  match marshal_vars vm.stack vm.bp arg_vars with
  | none => (none, vm)
  | some args_of_arg_vars =>
    match marshal_vars vm.stack vm.lp local_vars with
    | none => (none, vm)
    | some args_of_local_vars =>
      match f args_of_arg_vars args_of_local_vars with
      | (pc, arg_out, local_out) =>
        let stack1 := write_back vm.stack vm.bp arg_vars arg_out
        let stack2 := write_back stack1 vm.lp local_vars local_out
        (some pc, { vm with stack := stack2 })

/-! ## The slot scanner `collect_arg_and_local_vars`

src/src/jit.rs lines 740-782: a `while pc < end` loop whose body dispatches
on the opcode byte.  The loop body is embedded as `collect_step`; the loop
itself as `collectF`, driven by a fuel that bounds the number of iterations
(each iteration advances `pc` by at least one, so `end - pc` iterations
suffice).  The two `HashSet`s become insertion-ordered duplicate-free lists
(the Rust iteration order of a `HashSet` is unspecified). -/

inductive ScanAction where
  | next (pc : Nat) (arg_vars local_vars : List Nat) : ScanAction
  | fail : ScanAction

/-- `HashSet::insert`. -/
def hs_insert (s : List Nat) (x : Nat) : List Nat :=
  if x ∈ s then s else s ++ [x]

/-- One iteration of the `collect_arg_and_local_vars` loop (jit.rs lines
750-774), for `pc < end`. -/
def collect_step (insts : List Nat) (pc : Nat)
    (arg_vars local_vars : List Nat) : ScanAction :=
  let op := insts.getD pc 0
  if op = END then ScanAction.next (pc + 1) arg_vars local_vars
  else if op = CREATE_CONTEXT then ScanAction.next (pc + 5) arg_vars local_vars
  else if op = RETURN then ScanAction.next (pc + 1) arg_vars local_vars
  else if op = ASG_FREST_PARAM then ScanAction.next (pc + 9) arg_vars local_vars
  else if op = CONSTRUCT ∨ op = CREATE_OBJECT ∨ op = PUSH_CONST ∨ op = PUSH_INT32 ∨
      op = SET_GLOBAL ∨ op = CREATE_ARRAY ∨ op = CALL then
    ScanAction.next (pc + 5) arg_vars local_vars
  else if op = SET_ARG_LOCAL ∨ op = GET_ARG_LOCAL then
    ScanAction.next (pc + 5) (hs_insert arg_vars (get_int32 insts (pc + 1))) local_vars
  else if op = GET_LOCAL ∨ op = SET_LOCAL then
    ScanAction.next (pc + 5) arg_vars (hs_insert local_vars (get_int32 insts (pc + 1)))
  else if op = JMP ∨ op = JMP_IF_FALSE then ScanAction.next (pc + 5) arg_vars local_vars
  else if op = PUSH_INT8 then ScanAction.next (pc + 2) arg_vars local_vars
  else if op = PUSH_FALSE ∨ op = PUSH_TRUE ∨ op = PUSH_THIS ∨ op = ADD ∨ op = SUB ∨
      op = MUL ∨ op = DIV ∨ op = REM ∨ op = LT ∨ op = PUSH_ARGUMENTS ∨ op = NEG ∨
      op = GT ∨ op = LE ∨ op = GE ∨ op = EQ ∨ op = NE ∨ op = GET_MEMBER ∨
      op = SET_MEMBER then
    ScanAction.next (pc + 1) arg_vars local_vars
  else if op = GET_GLOBAL then ScanAction.next (pc + 5) arg_vars local_vars
  else ScanAction.fail

/-- The `while pc < end` loop of `collect_arg_and_local_vars`. -/
def collectF (insts : List Nat) (e : Nat) :
    Nat → Nat → List Nat → List Nat → Except Unit (List Nat × List Nat)
  | 0, pc, avs, lvs => if pc < e then Except.error () else Except.ok (avs, lvs)
  | fuel + 1, pc, avs, lvs =>
    if pc < e then
      match collect_step insts pc avs lvs with
      | ScanAction.fail => Except.error ()
      | ScanAction.next pc2 avs2 lvs2 => collectF insts e fuel pc2 avs2 lvs2
    else Except.ok (avs, lvs)

/-- `collect_arg_and_local_vars` (src/src/jit.rs lines 740-782). -/
def collect_arg_and_local_vars (insts : List Nat) (pc e : Nat) :
    Except Unit (List Nat × List Nat) :=
  collectF insts e (e - pc) pc [] []

/-! ## The label scanner of `gen_body`

src/src/jit.rs lines 815-848: the pre-pass that records one freshly appended
basic block per `JMP`/`JMP_IF_FALSE` target.  Basic-block references become
consecutive `Nat` tokens; the `HashMap` of labels becomes an association
list with the insert-overwrites-key semantics of `HashMap::insert`. -/

inductive LabelAction where
  | next (pc : Nat) (labels : List (Nat × Nat)) (next_id : Nat) : LabelAction
  | stop : LabelAction
  | fail : LabelAction

/-- `HashMap::insert` for the label map: one entry per key, the new value
replacing any previous one. -/
def hm_insert (m : List (Nat × Nat)) (k v : Nat) : List (Nat × Nat) :=
  (k, v) :: m.filter (fun p => p.1 != k)

/-- One iteration of the label-scan loop of `gen_body` (jit.rs lines
821-846), for `pc < end`.  A `JMP`/`JMP_IF_FALSE` records target
`(pc_after_immediate as i32 + dst) as usize`; a negative i32 sum, which Rust
would wrap to a huge usize, is clamped to 0 by `Int.toNat` (no claim involves
a negative target). -/
def label_scan_step (insts : List Nat) (is_func_jit : Bool) (pc : Nat)
    (labels : List (Nat × Nat)) (next_id : Nat) : LabelAction :=
  let op := insts.getD pc 0
  if op = END then LabelAction.stop
  else if op = CREATE_CONTEXT ∧ is_func_jit = true then LabelAction.stop
  else if op = CREATE_CONTEXT then LabelAction.next (pc + 5) labels next_id
  else if op = RETURN then LabelAction.next (pc + 1) labels next_id
  else if op = ASG_FREST_PARAM then LabelAction.next (pc + 9) labels next_id
  else if op = CONSTRUCT ∨ op = CREATE_OBJECT ∨ op = PUSH_CONST ∨ op = PUSH_INT32 ∨
      op = SET_GLOBAL ∨ op = GET_LOCAL ∨ op = SET_ARG_LOCAL ∨ op = GET_ARG_LOCAL ∨
      op = CREATE_ARRAY ∨ op = SET_LOCAL ∨ op = CALL then
    LabelAction.next (pc + 5) labels next_id
  else if op = JMP ∨ op = JMP_IF_FALSE then
    LabelAction.next (pc + 5)
      (hm_insert labels (((pc : Int) + 5 + as_i32 (get_int32 insts (pc + 1))).toNat) next_id)
      (next_id + 1)
  else if op = PUSH_INT8 then LabelAction.next (pc + 2) labels next_id
  else if op = PUSH_FALSE ∨ op = PUSH_TRUE ∨ op = PUSH_THIS ∨ op = ADD ∨ op = SUB ∨
      op = MUL ∨ op = DIV ∨ op = REM ∨ op = LT ∨ op = PUSH_ARGUMENTS ∨ op = NEG ∨
      op = GT ∨ op = LE ∨ op = GE ∨ op = EQ ∨ op = NE ∨ op = GET_MEMBER ∨
      op = SET_MEMBER then
    LabelAction.next (pc + 1) labels next_id
  else if op = GET_GLOBAL then LabelAction.next (pc + 5) labels next_id
  else LabelAction.fail

/-- The label-scan loop of `gen_body` (jit.rs lines 818-848), fuel-driven as
for `collectF`. -/
def labelScanF (insts : List Nat) (e : Nat) (is_func_jit : Bool) :
    Nat → Nat → List (Nat × Nat) → Nat → Except Unit (List (Nat × Nat) × Nat)
  | 0, pc, labels, nid => if pc < e then Except.error () else Except.ok (labels, nid)
  | fuel + 1, pc, labels, nid =>
    if pc < e then
      match label_scan_step insts is_func_jit pc labels nid with
      | LabelAction.fail => Except.error ()
      | LabelAction.stop => Except.ok (labels, nid)
      | LabelAction.next pc2 labels2 nid2 => labelScanF insts e is_func_jit fuel pc2 labels2 nid2
    else Except.ok (labels, nid)

/-- The label pre-scan phase of `gen_body` (src/src/jit.rs lines 815-848),
returning the label map (target pc ↦ basic-block token) and the next fresh
block token. -/
def gen_body_label_scan (insts : List Nat) (bgn e : Nat) (is_func_jit : Bool) :
    Except Unit (List (Nat × Nat) × Nat) :=
  labelScanF insts e is_func_jit (e - bgn) bgn [] 0

/-! ## Basic-block terminators and the loop exit passes

For claim C2 the state of the LLVM function after `gen_body`'s emission loop
is abstracted to: for each basic block (a `Nat` token) whether it has a
terminator, and which.  `gen_body`'s final pass over unpositioned labels
(jit.rs lines 1361-1374) and `gen_code_for_loop`'s fill of unterminated
blocks (jit.rs lines 677-688) are embedded over that abstraction. -/

inductive Term where
  | br (target : Nat) : Term
  | condbr (bthen belse : Nat) : Term
  | retConst (pcv : Nat) : Term
  | retVal (v : Nat) : Term
  deriving DecidableEq

/-- The terminator of block `id`, if the block exists
(`LLVMIsATerminatorInst(LLVMGetLastInstruction(bb))`). -/
def lookupTerm (bm : List (Nat × Option Term)) (id : Nat) : Option (Option Term) :=
  (bm.find? (fun q => q.1 == id)).map Prod.snd

/-- Appending a terminator at the end of block `id`
(`LLVMPositionBuilderAtEnd` + a `LLVMBuild{Br,Ret}`; used only on blocks with
no terminator yet). -/
def setTerm (bm : List (Nat × Option Term)) (id : Nat) (t : Term) :
    List (Nat × Option Term) :=
  bm.map (fun q => if q.1 = id then (q.1, some t) else q)

/-- The final pass of `gen_body` in loop mode (src/src/jit.rs lines
1361-1374): for every label never positioned during emission, branch to its
block from the current block if that one is still open, then position at the
label's block and return the constant target pc.  `cur` is the block the
builder is positioned at. -/
def stubPass (positioned : List Nat) :
    List (Nat × Nat) → List (Nat × Option Term) → Nat → List (Nat × Option Term) × Nat
  | [], bm, cur => (bm, cur)
  | (pos, bb) :: rest, bm, cur =>
    if pos ∈ positioned then stubPass positioned rest bm cur
    else
      let bm1 := if lookupTerm bm cur = some none then setTerm bm cur (Term.br bb) else bm
      let bm2 := setTerm bm1 bb (Term.retConst pos)
      stubPass positioned rest bm2 bb

/-- The terminator fill of `gen_code_for_loop` (src/src/jit.rs lines
677-688): every basic block still lacking a terminator receives
`ret (i32 end)`. -/
def fillPass (endpc : Nat) (bm : List (Nat × Option Term)) : List (Nat × Option Term) :=
  bm.map (fun q => (q.1, some (q.2.getD (Term.retConst endpc))))

/-! ## The `TracingJit` state machine -/

/-- `jit::JITInfo` (src/src/jit.rs lines 80-83). -/
structure JITInfo where
  cannot_jit : Bool

/-- `jit::FuncInfo` (src/src/jit.rs lines 106-111); the `fn()` pointer and
the `LLVMValueRef` become `Nat` tokens. -/
structure FuncInfo where
  func_addr : Option Nat
  llvm_func : Option Nat
  jit_info : JITInfo

/-- `FuncInfo::new` (src/src/jit.rs lines 113-121). -/
def FuncInfo.new : FuncInfo :=
  { func_addr := none, llvm_func := none, jit_info := { cannot_jit := false } }

/-- `jit::LoopInfo` (src/src/jit.rs lines 85-92); the native pointer is kept
as the function it denotes. -/
structure LoopInfo where
  func_addr : Option NativeLoop
  llvm_func : Option Nat
  arg_vars_id : List Nat
  local_vars_id : List Nat
  jit_info : JITInfo

/-- `LoopInfo::new` (src/src/jit.rs lines 94-104). -/
def LoopInfo.new : LoopInfo :=
  { func_addr := none, llvm_func := none, arg_vars_id := [], local_vars_id := [],
    jit_info := { cannot_jit := false } }

/-- `jit::TracingJit` (src/src/jit.rs lines 123-135): the four `HashMap`s,
modelled as total maps (`count` with the `or_insert(0)` default built in).
The LLVM context, module, builder, pass manager, current function and
builtin-function table are not modelled. -/
structure TracingJit where
  loop_info : Nat → Option LoopInfo
  func_info : Nat → Option FuncInfo
  return_ty_map : Nat → Option ValueType
  count : Nat → Nat

/-- `TracingJit::new` (src/src/jit.rs lines 138-266), LLVM setup elided. -/
def TracingJit.new : TracingJit :=
  { loop_info := fun _ => none, func_info := fun _ => none,
    return_ty_map := fun _ => none, count := fun _ => 0 }

/-- `HashMap::insert` / in-place entry update for the `TracingJit` maps. -/
def hm_update {α : Type} (m : Nat → Option α) (k : Nat) (v : α) : Nat → Option α :=
  fun q => if q = k then some v else m q

/-- `func_is_called_enough_times` (src/src/jit.rs lines 1476-1478). -/
def func_is_called_enough_times (st : TracingJit) (pc : Nat) : Bool :=
  decide (5 ≤ st.count pc)

/-- `loop_is_called_enough_times` (src/src/jit.rs lines 1481-1483). -/
def loop_is_called_enough_times (st : TracingJit) (pc : Nat) : Bool :=
  decide (7 ≤ st.count pc)

/-- `inc_count` (src/src/jit.rs lines 1486-1488). -/
def inc_count (st : TracingJit) (pc : Nat) : TracingJit :=
  { st with count := fun q => if q = pc then st.count q + 1 else st.count q }

/-- `gen_code_for_func` (src/src/jit.rs lines 382-477).  The argc cap (line
390) and the native-return-type selection (lines 394-398) are embedded
exactly; the LLVM function construction, `gen_body`, the terminator fill,
the verifier and the pass manager are abstracted: `emit_ok` stands for the
success of `gen_body` and `fid` for the `LLVMValueRef` of the added function.
The result carries that token and the chosen native return type. -/
def gen_code_for_func (emit_ok : Bool) (fid : Nat) (st : TracingJit)
    (pc argc : Nat) : Except Unit (Nat × LLVMTy) :=
  if argc > MAX_FUNCTION_PARAMS then Except.error ()
  else
    let func_ret_ty :=
      match st.return_ty_map pc with
      | some ty => to_llvmty ty
      | none => LLVMTy.double
    if emit_ok then Except.ok (fid, func_ret_ty) else Except.error ()

/-- `can_jit` (src/src/jit.rs lines 274-380).  The execution-engine creation,
global mappings and symbol resolution are abstracted; `faddr` stands for the
raw pointer the engine returns for the compiled function. -/
def can_jit (emit_ok : Bool) (fid faddr : Nat) (st : TracingJit)
    (pc argc : Nat) : Option Nat × TracingJit :=
  if ¬ func_is_called_enough_times st pc then (none, inc_count st pc)
  else
    let fi := (st.func_info pc).getD FuncInfo.new
    let st1 := { st with func_info := hm_update st.func_info pc fi }
    if fi.jit_info.cannot_jit then (none, st1)
    else
      match fi.func_addr with
      | some a => (some a, st1)
      | none =>
        match gen_code_for_func emit_ok fid st1 pc argc with
        | Except.error _ =>
          let fi2 : FuncInfo := { fi with jit_info := ⟨true⟩ }
          (none, { st1 with func_info := hm_update st1.func_info pc fi2 })
        | Except.ok (llvm_func, _) =>
          let fi2 : FuncInfo :=
            { fi with func_addr := some faddr, llvm_func := some llvm_func }
          (some faddr, { st1 with func_info := hm_update st1.func_info pc fi2 })

/-- `gen_code_for_loop` (src/src/jit.rs lines 598-709).  The slot scan (line
606) is embedded exactly via `collect_arg_and_local_vars`; the LLVM side is
abstracted by `emit_ok` / `fid` as in `gen_code_for_func` (a loop function's
return type is always i32, line 608). -/
def gen_code_for_loop (emit_ok : Bool) (fid : Nat) (insts : List Nat)
    (bgn e : Nat) : Except Unit (Nat × List Nat × List Nat) :=
  match collect_arg_and_local_vars insts bgn e with
  | Except.error _ => Except.error ()
  | Except.ok (arg_vars, local_vars) =>
    if emit_ok then Except.ok (fid, arg_vars, local_vars) else Except.error ()

/-- `can_loop_jit` (src/src/jit.rs lines 479-596), with the same
abstractions as `can_jit`; `fnative` stands for the native loop body obtained
from the execution engine. -/
def can_loop_jit (emit_ok : Bool) (fid : Nat) (fnative : NativeLoop)
    (insts : List Nat) (st : TracingJit) (vm : VMState) (e : Nat) :
    Option Int × TracingJit × VMState :=
  let bgn := vm.pc
  if ¬ loop_is_called_enough_times st bgn then (none, inc_count st bgn, vm)
  else
    let li := (st.loop_info bgn).getD LoopInfo.new
    let st1 := { st with loop_info := hm_update st.loop_info bgn li }
    if li.jit_info.cannot_jit then (none, st1, vm)
    else
      match li.func_addr with
      | some f =>
        let r := run_loop_llvm_func f vm li.arg_vars_id li.local_vars_id
        (r.1, st1, r.2)
      | none =>
        match gen_code_for_loop emit_ok fid insts bgn e with
        | Except.error _ =>
          let li2 : LoopInfo := { li with jit_info := ⟨true⟩ }
          (none, { st1 with loop_info := hm_update st1.loop_info bgn li2 }, vm)
        | Except.ok (llvm_func, arg_vars, local_vars) =>
          let li2 : LoopInfo :=
            { li with
              func_addr := some fnative,
              llvm_func := some llvm_func,
              arg_vars_id := arg_vars,
              local_vars_id := local_vars }
          let st2 := { st1 with loop_info := hm_update st1.loop_info bgn li2 }
          let r := run_loop_llvm_func fnative vm arg_vars local_vars
          (r.1, st2, r.2)

/-- `register_return_type` (src/src/jit.rs lines 1379-1385). -/
def register_return_type (st : TracingJit) (pc : Nat) (val : Value) : TracingJit :=
  match val with
  | Value.Number _ =>
    { st with return_ty_map := hm_update st.return_ty_map pc ValueType.Number }
  | Value.Bool _ =>
    { st with return_ty_map := hm_update st.return_ty_map pc ValueType.Bool }
  | _ => st

/-- `run_llvm_func` (src/src/jit.rs lines 1387-1432).  The transmuted native
pointer is modelled by its two possible readings `fN` (double-returning) and
`fB` (bool-returning); every `unimplemented!()` panic (a non-`Number`
argument, more than 3 arguments, a `String` return type) becomes `none`. -/
def run_llvm_func (st : TracingJit) (pc : Nat) (fN : List Float → Float)
    (fB : List Float → Bool) (args : List Value) : Option Value :=
  match args.mapM (fun a => match a with | Value.Number f => some f | _ => none) with
  | none => none
  | some llvm_args =>
    match (st.return_ty_map pc).getD ValueType.Number with
    | ValueType.Number =>
      if llvm_args.length ≤ 3 then some (Value.Number (fN llvm_args)) else none
    | ValueType.Bool =>
      if llvm_args.length ≤ 3 then some (Value.Bool (fB llvm_args)) else none
    | ValueType.String => none

/-- The `cannot_jit` flag of the function record at `pc` (false when no
record exists). -/
def funcCannot (st : TracingJit) (pc : Nat) : Bool :=
  match st.func_info pc with
  | some fi => fi.jit_info.cannot_jit
  | none => false

/-- The `cannot_jit` flag of the loop record at `pc` (false when no record
exists). -/
def loopCannot (st : TracingJit) (pc : Nat) : Bool :=
  match st.loop_info pc with
  | some li => li.jit_info.cannot_jit
  | none => false

/-! ## The interpreter's CREATE_CONTEXT handler

src/src/vm.rs lines 315-335 (`do_run2`, label `goto_create_context`). -/

/-- The parts of `vm::VM` the CREATE_CONTEXT handler touches
(src/src/vm.rs lines 146-158). -/
structure VMInterp where
  stack : List Value
  bp : Nat
  bp_buf : List Nat
  sp_history : List Nat

/-- The `goto_create_context` handler of `do_run2` (src/src/vm.rs lines
315-335): advances past the opcode byte, then decodes two 4-byte
little-endian immediates `n` (local count) and `argc`, pushes the frame
bookkeeping and `n` `Undefined` slots, and leaves `pc` at the next opcode. -/
def goto_create_context (insts : List Nat) (st : VMInterp) (pc : Nat) :
    VMInterp × Nat :=
  let pc1 := pc + 1
  let n := get_int32 insts pc1
  let pc2 := pc1 + 4
  let argc := get_int32 insts pc2
  let pc3 := pc2 + 4
  ({ stack := st.stack ++ List.replicate n Value.Undefined,
     bp := st.stack.length - argc,
     bp_buf := st.bp_buf ++ [st.bp],
     sp_history := st.sp_history ++ [st.stack.length - argc] }, pc3)

/-! # Theorems -/

theorem marshal_vars_none (stack : Nat → Value) (base : Nat) :
    ∀ ids : List Nat, ∀ id ∈ ids, isNumber (stack (base + id)) = false →
      marshal_vars stack base ids = none := by
  intro ids
  induction ids with
  | nil => intro id h; simp at h
  | cons hd tl ih =>
    intro id hmem hnum
    rcases List.mem_cons.mp hmem with heq | htl
    · subst heq
      unfold marshal_vars
      cases hsv : stack (base + id) <;> simp [isNumber, hsv] at hnum ⊢
    · unfold marshal_vars
      cases hsv : stack (base + hd)
      case Number f => rw [ih id htl hnum]; rfl
      all_goals rfl

/-- C1: if any interpreter stack slot named by a compiled loop record's
scanned arg-slot ids (at `stack[bp+id]`) or local-slot ids (at
`stack[lp+id]`) holds a value that is not a `Number`, then
`run_loop_llvm_func` returns `None` without invoking the native function
(the result is the same for every native `f`) and leaves the whole VM state,
in particular every stack slot, unchanged. -/
theorem loop_shim_rejects_non_number (f : NativeLoop) (vm : VMState)
    (arg_vars local_vars : List Nat)
    (h : (∃ id ∈ arg_vars, isNumber (vm.stack (vm.bp + id)) = false) ∨
         (∃ id ∈ local_vars, isNumber (vm.stack (vm.lp + id)) = false)) :
    run_loop_llvm_func f vm arg_vars local_vars = (none, vm) := by
  rcases h with ⟨id, hmem, hnum⟩ | ⟨id, hmem, hnum⟩
  · unfold run_loop_llvm_func
    rw [marshal_vars_none vm.stack vm.bp arg_vars id hmem hnum]
  · unfold run_loop_llvm_func
    rw [marshal_vars_none vm.stack vm.lp local_vars id hmem hnum]
    cases marshal_vars vm.stack vm.bp arg_vars <;> rfl

theorem loop_shim_rejects_non_number_witness :
    run_loop_llvm_func (fun a l => (0, a, l))
      ⟨fun _ => Value.Bool true, 0, 0, 0⟩ [2] [] =
    (none, ⟨fun _ => Value.Bool true, 0, 0, 0⟩) :=
  loop_shim_rejects_non_number (fun a l => (0, a, l))
    ⟨fun _ => Value.Bool true, 0, 0, 0⟩ [2] []
    (Or.inl ⟨2, List.mem_singleton.mpr rfl, rfl⟩)

/-- C5 (code-bug evidence): the bytecode region
`[PUSH_INT8 1, PUSH_INT8 2, SEQ, END]` is built only from supported push and
comparison opcodes (the spec lists `SEQ` among the supported comparisons),
yet both region scanners of the JIT reject it: the label pre-scan of
`gen_body` and `collect_arg_and_local_vars` have no arm for `SEQ` (nor `SNE`)
and return `Err`, although the emission loop of `gen_body` (jit.rs lines
1057-1086) lowers both to ordered float comparisons.  Hence IR emission fails
on this region, in both function and loop mode. -/
theorem seq_region_rejected_by_scanners :
    gen_body_label_scan [PUSH_INT8, 1, PUSH_INT8, 2, SEQ, END] 0 6 false =
      Except.error () ∧
    gen_body_label_scan [PUSH_INT8, 1, PUSH_INT8, 2, SEQ, END] 0 6 true =
      Except.error () ∧
    collect_arg_and_local_vars [PUSH_INT8, 1, PUSH_INT8, 2, SEQ, END] 0 6 =
      Except.error () :=
  ⟨rfl, rfl, rfl⟩

/-- C6 (counterexample): on the buffer
`[CREATE_CONTEXT, 2,0,0,0, GET_LOCAL, 7,0,0,0]` the interpreter's
CREATE_CONTEXT handler consumes eight immediate bytes (pc 0 → 9, two 4-byte
immediates), while the JIT scanners skip only four: their next opcode is read
at pc 5, so `collect_arg_and_local_vars` parses the bytes the interpreter
reads as `argc` as a GET_LOCAL instruction and records local slot 7.  The
two widths (8 and 4 immediate bytes) disagree. -/
theorem create_context_width_counterexample :
    (goto_create_context [CREATE_CONTEXT, 2, 0, 0, 0, GET_LOCAL, 7, 0, 0, 0]
        ⟨[], 0, [], []⟩ 0).2 = 9 ∧
    collect_step [CREATE_CONTEXT, 2, 0, 0, 0, GET_LOCAL, 7, 0, 0, 0] 0 [] [] =
      ScanAction.next 5 [] [] ∧
    label_scan_step [CREATE_CONTEXT, 2, 0, 0, 0, GET_LOCAL, 7, 0, 0, 0] false 0 [] 0 =
      LabelAction.next 5 [] 0 ∧
    collect_arg_and_local_vars [CREATE_CONTEXT, 2, 0, 0, 0, GET_LOCAL, 7, 0, 0, 0] 0 10 =
      Except.ok ([], [7]) ∧
    (9 : Nat) ≠ 5 :=
  ⟨rfl, rfl, rfl, rfl, by decide⟩

/-- C6 (amended): the interpreter decodes CREATE_CONTEXT with eight
immediate bytes (`n_locals` and `n_args`, both little-endian u32), while the
JIT scanners skip only four for it — the two disagree on CREATE_CONTEXT; in
the scanners, every other immediate-bearing opcode takes four little-endian
immediate bytes, except PUSH_INT8 (one) and ASG_FREST_PARAM (eight). -/
theorem create_context_width_amended :
    (∀ insts st pc, (goto_create_context insts st pc).2 = pc + 9) ∧
    (∀ insts pc avs lvs, insts.getD pc 0 = CREATE_CONTEXT →
      collect_step insts pc avs lvs = ScanAction.next (pc + 5) avs lvs) ∧
    (∀ insts pc labels nid, insts.getD pc 0 = CREATE_CONTEXT →
      label_scan_step insts false pc labels nid = LabelAction.next (pc + 5) labels nid) ∧
    (∀ insts pc avs lvs, insts.getD pc 0 = PUSH_INT8 →
      collect_step insts pc avs lvs = ScanAction.next (pc + 2) avs lvs) ∧
    (∀ insts pc avs lvs, insts.getD pc 0 = ASG_FREST_PARAM →
      collect_step insts pc avs lvs = ScanAction.next (pc + 9) avs lvs) ∧
    (∀ insts pc avs lvs,
      insts.getD pc 0 = CONSTRUCT ∨ insts.getD pc 0 = CREATE_OBJECT ∨
      insts.getD pc 0 = PUSH_CONST ∨ insts.getD pc 0 = PUSH_INT32 ∨
      insts.getD pc 0 = SET_GLOBAL ∨ insts.getD pc 0 = CREATE_ARRAY ∨
      insts.getD pc 0 = CALL ∨ insts.getD pc 0 = JMP ∨
      insts.getD pc 0 = JMP_IF_FALSE ∨ insts.getD pc 0 = GET_GLOBAL →
      collect_step insts pc avs lvs = ScanAction.next (pc + 5) avs lvs) ∧
    (∀ insts pc avs lvs, insts.getD pc 0 = GET_LOCAL ∨ insts.getD pc 0 = SET_LOCAL →
      collect_step insts pc avs lvs =
        ScanAction.next (pc + 5) avs (hs_insert lvs (get_int32 insts (pc + 1)))) ∧
    (∀ insts pc avs lvs, insts.getD pc 0 = GET_ARG_LOCAL ∨ insts.getD pc 0 = SET_ARG_LOCAL →
      collect_step insts pc avs lvs =
        ScanAction.next (pc + 5) (hs_insert avs (get_int32 insts (pc + 1))) lvs) := by
  refine ⟨fun insts st pc => rfl, ?_, ?_, ?_, ?_, ?_, ?_, ?_⟩
  · intro insts pc avs lvs h
    unfold collect_step
    rw [h]; rfl
  · intro insts pc labels nid h
    unfold label_scan_step
    rw [h]; rfl
  · intro insts pc avs lvs h
    unfold collect_step
    rw [h]; rfl
  · intro insts pc avs lvs h
    unfold collect_step
    rw [h]; rfl
  · intro insts pc avs lvs h
    unfold collect_step
    rcases h with h | h | h | h | h | h | h | h | h | h <;> rw [h] <;> rfl
  · intro insts pc avs lvs h
    unfold collect_step
    rcases h with h | h <;> rw [h] <;> rfl
  · intro insts pc avs lvs h
    unfold collect_step
    rcases h with h | h <;> rw [h] <;> rfl

theorem create_context_width_amended_witness :
    collect_step [CREATE_CONTEXT, 0, 0, 0, 0, END] 0 [] [] =
      ScanAction.next 5 [] [] ∧
    (goto_create_context [CREATE_CONTEXT, 0, 0, 0, 0, END] ⟨[], 0, [], []⟩ 0).2 = 9 :=
  ⟨create_context_width_amended.2.1 [CREATE_CONTEXT, 0, 0, 0, 0, END] 0 [] [] rfl,
   create_context_width_amended.1 [CREATE_CONTEXT, 0, 0, 0, 0, END] ⟨[], 0, [], []⟩ 0⟩

/-- C8: the native return type chosen at compilation by `gen_code_for_func`
and the `Value` wrapper chosen by `run_llvm_func` when running the compiled
function are both determined by the `ValueType` recorded in the return-type
map for the function's entry pc, with `Number` assumed when the map holds no
entry. -/
theorem return_type_consistency :
    (∀ emit_ok fid st pc argc, argc ≤ MAX_FUNCTION_PARAMS → emit_ok = true →
      gen_code_for_func emit_ok fid st pc argc =
        Except.ok (fid, to_llvmty ((st.return_ty_map pc).getD ValueType.Number))) ∧
    (∀ st pc fN fB args v, run_llvm_func st pc fN fB args = some v →
      valueTypeOf v = some ((st.return_ty_map pc).getD ValueType.Number)) := by
  constructor
  · intro emit_ok fid st pc argc hargc hemit
    subst hemit
    unfold gen_code_for_func
    rw [if_neg (by omega)]
    cases h : st.return_ty_map pc <;> simp [h, Option.getD, to_llvmty]
  · intro st pc fN fB args v hrun
    unfold run_llvm_func at hrun
    split at hrun
    · cases hrun
    · split at hrun <;> rename_i hty
      · split at hrun
        · cases hrun
          simp [valueTypeOf, hty]
        · cases hrun
      · split at hrun
        · cases hrun
          simp [valueTypeOf, hty]
        · cases hrun
      · cases hrun

theorem return_type_consistency_witness :
    gen_code_for_func true 5 TracingJit.new 0 2 = Except.ok (5, LLVMTy.double) ∧
    valueTypeOf (Value.Number 0) =
      some ((TracingJit.new.return_ty_map 0).getD ValueType.Number) :=
  ⟨return_type_consistency.1 true 5 TracingJit.new 0 2 (by decide) rfl,
   return_type_consistency.2 TracingJit.new 0 (fun _ => 0) (fun _ => true) []
     (Value.Number 0) rfl⟩

/-- C9 (counterexample): with `Number` recorded at pc 7, observing the value
`Bool true` makes `register_return_type` replace the entry by `Bool`, a
different, non-refining `ValueType` (the three types are mutually
inconvertible in compiled code), refuting the claim that an existing entry is
only overwritten by an equal or refining observation. -/
theorem register_return_type_counterexample :
    ({ TracingJit.new with
        return_ty_map := hm_update TracingJit.new.return_ty_map 7 ValueType.Number } :
      TracingJit).return_ty_map 7 = some ValueType.Number ∧
    (register_return_type
      { TracingJit.new with
        return_ty_map := hm_update TracingJit.new.return_ty_map 7 ValueType.Number }
      7 (Value.Bool true)).return_ty_map 7 = some ValueType.Bool ∧
    ValueType.Bool ≠ ValueType.Number :=
  ⟨rfl, rfl, by decide⟩

/-- C9 (amended): once the return-type map holds an entry at `pc`,
`register_return_type` overwrites it exactly when the observed value is a
`Number` or a `Bool` — recording the observed value's type, even when that
differs from the existing entry — and leaves the entry unchanged on an
observation of any other variant. -/
theorem register_return_type_overwrite (st : TracingJit) (pc : Nat)
    (ty : ValueType) (hty : st.return_ty_map pc = some ty) (v : Value) :
    ((∃ f, v = Value.Number f) →
      (register_return_type st pc v).return_ty_map pc = some ValueType.Number) ∧
    ((∃ b, v = Value.Bool b) →
      (register_return_type st pc v).return_ty_map pc = some ValueType.Bool) ∧
    ((∀ f, v ≠ Value.Number f) → (∀ b, v ≠ Value.Bool b) →
      (register_return_type st pc v).return_ty_map pc = some ty) := by
  refine ⟨?_, ?_, ?_⟩ <;> cases v <;> intros <;>
    simp_all [register_return_type, hm_update]

theorem register_return_type_overwrite_witness :
    (register_return_type
      { TracingJit.new with
        return_ty_map := hm_update TracingJit.new.return_ty_map 7 ValueType.Number }
      7 Value.Undefined).return_ty_map 7 = some ValueType.Number :=
  (register_return_type_overwrite
    { TracingJit.new with
      return_ty_map := hm_update TracingJit.new.return_ty_map 7 ValueType.Number }
    7 ValueType.Number rfl Value.Undefined).2.2
    (fun _ h => Value.noConfusion h) (fun _ h => Value.noConfusion h)

/-- C10: `register_return_type` updates the return-type map exactly when the
observed value is a `Number` or a `Bool` (recording `Number`/`Bool` at that
pc and touching no other entry); for every other variant — `String`,
`Undefined`, `Function`, `Object`, `NeedThis`, `WithThis`,
`EmbeddedFunction` — it leaves the whole `TracingJit` state, in particular
the map, unchanged. -/
theorem register_return_type_exact (st : TracingJit) (pc : Nat) (v : Value) :
    ((∃ f, v = Value.Number f) →
      (register_return_type st pc v).return_ty_map pc = some ValueType.Number ∧
      ∀ q, q ≠ pc →
        (register_return_type st pc v).return_ty_map q = st.return_ty_map q) ∧
    ((∃ b, v = Value.Bool b) →
      (register_return_type st pc v).return_ty_map pc = some ValueType.Bool ∧
      ∀ q, q ≠ pc →
        (register_return_type st pc v).return_ty_map q = st.return_ty_map q) ∧
    ((∀ f, v ≠ Value.Number f) → (∀ b, v ≠ Value.Bool b) →
      register_return_type st pc v = st) := by
  refine ⟨?_, ?_, ?_⟩ <;> cases v <;> intros <;>
    simp_all [register_return_type, hm_update]

theorem register_return_type_exact_witness :
    register_return_type TracingJit.new 3 (Value.String "") = TracingJit.new :=
  (register_return_type_exact TracingJit.new 3 (Value.String "")).2.2
    (fun _ h => Value.noConfusion h) (fun _ h => Value.noConfusion h)

/-- C7: for `argc > 3` function compilation is rejected up front —
`gen_code_for_func` returns `Err` whatever the emission oracle says, i.e.
before any code is emitted — and a hot `can_jit` query on a record that is
not yet blocked or compiled then sets the record's `cannot_jit` flag and
returns `None`, so the interpreter keeps its fallback. -/
theorem argc_cap (emit_ok : Bool) (fid faddr : Nat) (st : TracingJit)
    (pc argc : Nat) (hargc : MAX_FUNCTION_PARAMS < argc)
    (hhot : 5 ≤ st.count pc)
    (hrec : ∀ fi, st.func_info pc = some fi →
      fi.jit_info.cannot_jit = false ∧ fi.func_addr = none) :
    gen_code_for_func emit_ok fid st pc argc = Except.error () ∧
    (can_jit emit_ok fid faddr st pc argc).1 = none ∧
    funcCannot (can_jit emit_ok fid faddr st pc argc).2 pc = true := by
  have hgen : ∀ st2 : TracingJit, gen_code_for_func emit_ok fid st2 pc argc =
      Except.error () := by
    intro st2
    unfold gen_code_for_func
    rw [if_pos hargc]
  have h5 : func_is_called_enough_times st pc = true := by
    simp [func_is_called_enough_times, hhot]
  refine ⟨hgen st, ?_, ?_⟩ <;>
  · unfold can_jit
    rw [h5]
    simp only [not_true_eq_false, if_false]
    cases hfi : st.func_info pc with
    | none => simp [hfi, FuncInfo.new, hgen, funcCannot, hm_update]
    | some fi =>
      obtain ⟨hcj, hfa⟩ := hrec fi hfi
      simp [hfi, hcj, hfa, hgen, funcCannot, hm_update]

theorem argc_cap_witness :
    gen_code_for_func true 0 { TracingJit.new with count := fun _ => 5 } 0 4 =
      Except.error () ∧
    (can_jit true 0 0 { TracingJit.new with count := fun _ => 5 } 0 4).1 = none ∧
    funcCannot (can_jit true 0 0 { TracingJit.new with count := fun _ => 5 } 0 4).2 0 =
      true :=
  argc_cap true 0 0 { TracingJit.new with count := fun _ => 5 } 0 4
    (by decide) (by decide) (fun _ h => Option.noConfusion h)

/-- C4: a `can_jit` query while the per-pc counter is below 5 increments the
counter and returns `None` without touching anything else; a query at
counter ≥ 5 (on a pc without a record yet) proceeds to compilation, its
result being decided by the outcome of `gen_code_for_func` and the counter
left unchanged.  `can_loop_jit` behaves the same with threshold 7, its
success result being the run of the freshly compiled loop body. -/
theorem hotness_thresholds :
    (∀ emit_ok fid faddr st pc argc, st.count pc < 5 →
      can_jit emit_ok fid faddr st pc argc = (none, inc_count st pc)) ∧
    (∀ emit_ok fid fnative insts st (vm : VMState) e, st.count vm.pc < 7 →
      can_loop_jit emit_ok fid fnative insts st vm e = (none, inc_count st vm.pc, vm)) ∧
    (∀ emit_ok fid faddr st pc argc, 5 ≤ st.count pc → st.func_info pc = none →
      ((can_jit emit_ok fid faddr st pc argc).1 =
        match gen_code_for_func emit_ok fid st pc argc with
        | Except.ok _ => some faddr
        | Except.error _ => none) ∧
      (can_jit emit_ok fid faddr st pc argc).2.count = st.count) ∧
    (∀ emit_ok fid fnative insts st (vm : VMState) e,
      7 ≤ st.count vm.pc → st.loop_info vm.pc = none →
      ((can_loop_jit emit_ok fid fnative insts st vm e).1 =
        match gen_code_for_loop emit_ok fid insts vm.pc e with
        | Except.ok (_, arg_vars, local_vars) =>
          (run_loop_llvm_func fnative vm arg_vars local_vars).1
        | Except.error _ => none) ∧
      (can_loop_jit emit_ok fid fnative insts st vm e).2.1.count = st.count) := by
  refine ⟨?_, ?_, ?_, ?_⟩
  · intro emit_ok fid faddr st pc argc h
    have h5 : func_is_called_enough_times st pc = false := by
      simp [func_is_called_enough_times]; omega
    unfold can_jit
    rw [h5]
    simp
  · intro emit_ok fid fnative insts st vm e h
    have h7 : loop_is_called_enough_times st vm.pc = false := by
      simp [loop_is_called_enough_times]; omega
    unfold can_loop_jit
    simp [h7]
  · intro emit_ok fid faddr st pc argc hhot hfi
    have h5 : func_is_called_enough_times st pc = true := by
      simp [func_is_called_enough_times, hhot]
    unfold can_jit gen_code_for_func
    rw [h5]
    simp only [not_true_eq_false, if_false]
    rw [hfi]
    by_cases hc : MAX_FUNCTION_PARAMS < argc
    · simp [hc, FuncInfo.new]
    · cases emit_ok <;> simp [hc, FuncInfo.new]
  · intro emit_ok fid fnative insts st vm e hhot hli
    have h7 : loop_is_called_enough_times st vm.pc = true := by
      simp [loop_is_called_enough_times, hhot]
    unfold can_loop_jit
    simp only [h7, not_true_eq_false, if_false, hli]
    cases hgen : gen_code_for_loop emit_ok fid insts vm.pc e with
    | error u =>
      simp [LoopInfo.new, hgen]
    | ok p =>
      obtain ⟨llvm_func, arg_vars, local_vars⟩ := p
      simp [LoopInfo.new, hgen]

theorem hotness_thresholds_witness :
    can_jit true 0 0 TracingJit.new 11 0 = (none, inc_count TracingJit.new 11) ∧
    can_loop_jit true 0 (fun a l => (0, a, l)) []
        TracingJit.new ⟨fun _ => Value.Undefined, 0, 0, 11⟩ 0 =
      (none, inc_count TracingJit.new 11, ⟨fun _ => Value.Undefined, 0, 0, 11⟩) ∧
    (can_jit true 0 0 { TracingJit.new with count := fun _ => 5 } 11 0).2.count =
      ({ TracingJit.new with count := fun _ => 5 } : TracingJit).count ∧
    (can_loop_jit true 0 (fun a l => (0, a, l)) []
        { TracingJit.new with count := fun _ => 7 }
        ⟨fun _ => Value.Undefined, 0, 0, 11⟩ 0).2.1.count =
      ({ TracingJit.new with count := fun _ => 7 } : TracingJit).count :=
  ⟨hotness_thresholds.1 true 0 0 TracingJit.new 11 0 (by decide),
   hotness_thresholds.2.1 true 0 (fun a l => (0, a, l)) [] TracingJit.new
     ⟨fun _ => Value.Undefined, 0, 0, 11⟩ 0 (by decide),
   (hotness_thresholds.2.2.1 true 0 0 { TracingJit.new with count := fun _ => 5 } 11 0
     (by decide) rfl).2,
   (hotness_thresholds.2.2.2 true 0 (fun a l => (0, a, l)) []
     { TracingJit.new with count := fun _ => 7 }
     ⟨fun _ => Value.Undefined, 0, 0, 11⟩ 0 (by decide) rfl).2⟩

theorem funcCannot_of_eq {st2 st : TracingJit} {pc : Nat}
    (h : st2.func_info pc = st.func_info pc) : funcCannot st2 pc = funcCannot st pc := by
  unfold funcCannot
  rw [h]

theorem loopCannot_of_eq {st2 st : TracingJit} {pc : Nat}
    (h : st2.loop_info pc = st.loop_info pc) : loopCannot st2 pc = loopCannot st pc := by
  unfold loopCannot
  rw [h]

theorem can_jit_blocked (emit_ok : Bool) (fid faddr : Nat) (st : TracingJit)
    (pc argc : Nat) (h : funcCannot st pc = true) :
    (can_jit emit_ok fid faddr st pc argc).1 = none ∧
    funcCannot (can_jit emit_ok fid faddr st pc argc).2 pc = true := by
  cases hfi : st.func_info pc with
  | none => simp [funcCannot, hfi] at h
  | some fi =>
    have hc : fi.jit_info.cannot_jit = true := by simpa [funcCannot, hfi] using h
    unfold can_jit
    cases h5 : func_is_called_enough_times st pc
    · simp [inc_count, funcCannot, hfi, hc]
    · simp [hfi, hc, funcCannot, hm_update]

theorem can_jit_func_info_frame (emit_ok : Bool) (fid faddr : Nat)
    (st : TracingJit) (pc argc q : Nat) (hq : q ≠ pc) :
    (can_jit emit_ok fid faddr st pc argc).2.func_info q = st.func_info q := by
  unfold can_jit
  dsimp only
  split
  · rfl
  · split
    · simp [hm_update, hq]
    · split
      · simp [hm_update, hq]
      · split <;> simp [hm_update, hq]

theorem can_jit_loop_info (emit_ok : Bool) (fid faddr : Nat) (st : TracingJit)
    (pc argc : Nat) :
    (can_jit emit_ok fid faddr st pc argc).2.loop_info = st.loop_info := by
  unfold can_jit
  dsimp only
  split
  · rfl
  · split
    · rfl
    · split
      · rfl
      · split <;> rfl

theorem can_loop_jit_blocked (emit_ok : Bool) (fid : Nat) (fnative : NativeLoop)
    (insts : List Nat) (st : TracingJit) (vm : VMState) (e : Nat)
    (h : loopCannot st vm.pc = true) :
    (can_loop_jit emit_ok fid fnative insts st vm e).1 = none ∧
    loopCannot (can_loop_jit emit_ok fid fnative insts st vm e).2.1 vm.pc = true := by
  cases hli : st.loop_info vm.pc with
  | none => simp [loopCannot, hli] at h
  | some li =>
    have hc : li.jit_info.cannot_jit = true := by simpa [loopCannot, hli] using h
    unfold can_loop_jit
    cases h7 : loop_is_called_enough_times st vm.pc
    · simp [h7, inc_count, loopCannot, hli, hc]
    · simp [h7, hli, hc, loopCannot, hm_update]

theorem can_loop_jit_loop_info_frame (emit_ok : Bool) (fid : Nat)
    (fnative : NativeLoop) (insts : List Nat) (st : TracingJit) (vm : VMState)
    (e q : Nat) (hq : q ≠ vm.pc) :
    (can_loop_jit emit_ok fid fnative insts st vm e).2.1.loop_info q =
      st.loop_info q := by
  unfold can_loop_jit
  dsimp only
  split
  · rfl
  · split
    · simp [hm_update, hq]
    · split
      · simp [hm_update, hq]
      · split <;> simp [hm_update, hq]

theorem can_loop_jit_func_info (emit_ok : Bool) (fid : Nat) (fnative : NativeLoop)
    (insts : List Nat) (st : TracingJit) (vm : VMState) (e : Nat) :
    (can_loop_jit emit_ok fid fnative insts st vm e).2.1.func_info = st.func_info := by
  unfold can_loop_jit
  dsimp only
  split
  · rfl
  · split
    · rfl
    · split
      · rfl
      · split <;> rfl

theorem register_return_type_func_info (st : TracingJit) (pc : Nat) (v : Value) :
    (register_return_type st pc v).func_info = st.func_info := by
  cases v <;> rfl

theorem register_return_type_loop_info (st : TracingJit) (pc : Nat) (v : Value) :
    (register_return_type st pc v).loop_info = st.loop_info := by
  cases v <;> rfl

/-- C3: the `cannot_jit` flags are sticky and monotonic.  Once the function
record at `pc` is `cannot_jit`, every later `can_jit` query at `pc` returns
`None` independently of the compilation oracle (no compilation is attempted),
and no operation of `TracingJit` — `can_jit`, `can_loop_jit` or
`register_return_type`, at any pc — resets the flag.  Symmetrically for the
loop record's flag and `can_loop_jit` queries at that header pc
(`vm_state.pc`).  (`run_llvm_func` only reads the state.) -/
theorem cannot_jit_sticky (st : TracingJit) (pc : Nat) :
    (funcCannot st pc = true →
      (∀ emit_ok fid faddr argc, (can_jit emit_ok fid faddr st pc argc).1 = none) ∧
      (∀ emit_ok fid faddr pc2 argc,
        funcCannot (can_jit emit_ok fid faddr st pc2 argc).2 pc = true) ∧
      (∀ emit_ok fid fnative insts vm e,
        funcCannot (can_loop_jit emit_ok fid fnative insts st vm e).2.1 pc = true) ∧
      (∀ pc2 v, funcCannot (register_return_type st pc2 v) pc = true)) ∧
    (loopCannot st pc = true →
      (∀ emit_ok fid fnative insts (vm : VMState) e, vm.pc = pc →
        (can_loop_jit emit_ok fid fnative insts st vm e).1 = none) ∧
      (∀ emit_ok fid fnative insts vm e,
        loopCannot (can_loop_jit emit_ok fid fnative insts st vm e).2.1 pc = true) ∧
      (∀ emit_ok fid faddr pc2 argc,
        loopCannot (can_jit emit_ok fid faddr st pc2 argc).2 pc = true) ∧
      (∀ pc2 v, loopCannot (register_return_type st pc2 v) pc = true)) := by
  constructor
  · intro h
    refine ⟨?_, ?_, ?_, ?_⟩
    · intro emit_ok fid faddr argc
      exact (can_jit_blocked emit_ok fid faddr st pc argc h).1
    · intro emit_ok fid faddr pc2 argc
      by_cases hq : pc = pc2
      · subst hq
        exact (can_jit_blocked emit_ok fid faddr st pc argc h).2
      · rw [funcCannot_of_eq (can_jit_func_info_frame emit_ok fid faddr st pc2 argc pc hq)]
        exact h
    · intro emit_ok fid fnative insts vm e
      rw [funcCannot_of_eq
        (congrFun (can_loop_jit_func_info emit_ok fid fnative insts st vm e) pc)]
      exact h
    · intro pc2 v
      rw [funcCannot_of_eq (congrFun (register_return_type_func_info st pc2 v) pc)]
      exact h
  · intro h
    refine ⟨?_, ?_, ?_, ?_⟩
    · intro emit_ok fid fnative insts vm e hvm
      exact (can_loop_jit_blocked emit_ok fid fnative insts st vm e (hvm ▸ h)).1
    · intro emit_ok fid fnative insts vm e
      by_cases hq : pc = vm.pc
      · subst hq
        exact (can_loop_jit_blocked emit_ok fid fnative insts st vm e h).2
      · rw [loopCannot_of_eq
          (can_loop_jit_loop_info_frame emit_ok fid fnative insts st vm e pc hq)]
        exact h
    · intro emit_ok fid faddr pc2 argc
      rw [loopCannot_of_eq (congrFun (can_jit_loop_info emit_ok fid faddr st pc2 argc) pc)]
      exact h
    · intro pc2 v
      rw [loopCannot_of_eq (congrFun (register_return_type_loop_info st pc2 v) pc)]
      exact h

theorem cannot_jit_sticky_witness :
    (can_jit true 0 0
      { TracingJit.new with
        func_info := hm_update TracingJit.new.func_info 3
          { FuncInfo.new with jit_info := ⟨true⟩ },
        loop_info := hm_update TracingJit.new.loop_info 3
          { LoopInfo.new with jit_info := ⟨true⟩ },
        count := fun _ => 9 } 3 0).1 = none ∧
    funcCannot (register_return_type
      { TracingJit.new with
        func_info := hm_update TracingJit.new.func_info 3
          { FuncInfo.new with jit_info := ⟨true⟩ },
        loop_info := hm_update TracingJit.new.loop_info 3
          { LoopInfo.new with jit_info := ⟨true⟩ },
        count := fun _ => 9 } 5 (Value.Number 1)) 3 = true ∧
    (can_loop_jit true 0 (fun a l => (0, a, l)) []
      { TracingJit.new with
        func_info := hm_update TracingJit.new.func_info 3
          { FuncInfo.new with jit_info := ⟨true⟩ },
        loop_info := hm_update TracingJit.new.loop_info 3
          { LoopInfo.new with jit_info := ⟨true⟩ },
        count := fun _ => 9 } ⟨fun _ => Value.Undefined, 0, 0, 3⟩ 8).1 = none :=
  ⟨((cannot_jit_sticky
      { TracingJit.new with
        func_info := hm_update TracingJit.new.func_info 3
          { FuncInfo.new with jit_info := ⟨true⟩ },
        loop_info := hm_update TracingJit.new.loop_info 3
          { LoopInfo.new with jit_info := ⟨true⟩ },
        count := fun _ => 9 } 3).1 rfl).1 true 0 0 0,
   ((cannot_jit_sticky
      { TracingJit.new with
        func_info := hm_update TracingJit.new.func_info 3
          { FuncInfo.new with jit_info := ⟨true⟩ },
        loop_info := hm_update TracingJit.new.loop_info 3
          { LoopInfo.new with jit_info := ⟨true⟩ },
        count := fun _ => 9 } 3).1 rfl).2.2.2 5 (Value.Number 1),
   ((cannot_jit_sticky
      { TracingJit.new with
        func_info := hm_update TracingJit.new.func_info 3
          { FuncInfo.new with jit_info := ⟨true⟩ },
        loop_info := hm_update TracingJit.new.loop_info 3
          { LoopInfo.new with jit_info := ⟨true⟩ },
        count := fun _ => 9 } 3).2 rfl).1 true 0 (fun a l => (0, a, l)) []
     ⟨fun _ => Value.Undefined, 0, 0, 3⟩ 8 rfl⟩

theorem lookupTerm_setTerm_self (bm : List (Nat × Option Term)) (id : Nat) (t : Term) :
    lookupTerm (setTerm bm id t) id =
      (lookupTerm bm id).map (fun _ => some t) := by
  induction bm with
  | nil => rfl
  | cons q rest ih =>
    obtain ⟨a, b⟩ := q
    by_cases h : a = id
    · subst h
      simp [setTerm, lookupTerm]
    · simp only [setTerm, List.map_cons, if_neg h]
      simp only [lookupTerm] at ih ⊢
      rw [List.find?_cons_of_neg, List.find?_cons_of_neg]
      · exact ih
      · simp [h]
      · simp [h]

theorem lookupTerm_setTerm_ne (bm : List (Nat × Option Term)) (id id2 : Nat)
    (t : Term) (h : id ≠ id2) :
    lookupTerm (setTerm bm id2 t) id = lookupTerm bm id := by
  induction bm with
  | nil => rfl
  | cons q rest ih =>
    obtain ⟨a, b⟩ := q
    by_cases ha : a = id2
    · subst ha
      simp only [setTerm, List.map_cons, if_pos rfl]
      simp only [lookupTerm] at ih ⊢
      rw [List.find?_cons_of_neg, List.find?_cons_of_neg]
      · exact ih
      · simp [Ne.symm h]
      · simp [Ne.symm h]
    · simp only [setTerm, List.map_cons, if_neg ha]
      by_cases hai : a = id
      · subst hai
        simp [lookupTerm]
      · simp only [lookupTerm] at ih ⊢
        rw [List.find?_cons_of_neg, List.find?_cons_of_neg]
        · exact ih
        · simp [hai]
        · simp [hai]

theorem lookupTerm_fillPass (bm : List (Nat × Option Term)) (endpc id : Nat) :
    lookupTerm (fillPass endpc bm) id =
      (lookupTerm bm id).map (fun o => some (o.getD (Term.retConst endpc))) := by
  induction bm with
  | nil => rfl
  | cons q rest ih =>
    obtain ⟨a, b⟩ := q
    by_cases h : a = id
    · subst h
      simp [fillPass, lookupTerm]
    · simp only [fillPass, List.map_cons]
      simp only [fillPass] at ih
      simp only [lookupTerm] at ih ⊢
      rw [List.find?_cons_of_neg, List.find?_cons_of_neg]
      · exact ih
      · simp [h]
      · simp [h]

theorem stubPass_preserve (positioned : List Nat) :
    ∀ (labels : List (Nat × Nat)) (bm : List (Nat × Option Term)) (cur id : Nat)
      (t : Term),
    lookupTerm bm id = some (some t) →
    (∀ p ∈ labels, p.1 ∉ positioned → id ≠ p.2) →
    lookupTerm (stubPass positioned labels bm cur).1 id = some (some t) := by
  intro labels
  induction labels with
  | nil => intro bm cur id t h _; exact h
  | cons q rest ih =>
    intro bm cur id t h hne
    obtain ⟨pos, bb⟩ := q
    unfold stubPass
    by_cases hpos : pos ∈ positioned
    · rw [if_pos hpos]
      exact ih bm cur id t h (fun p hp => hne p (List.mem_cons_of_mem _ hp))
    · rw [if_neg hpos]
      dsimp only
      have hid_bb : id ≠ bb := hne (pos, bb) (List.mem_cons_self _ _) hpos
      have h1 : lookupTerm
          (if lookupTerm bm cur = some none then setTerm bm cur (Term.br bb) else bm)
          id = some (some t) := by
        split
        · by_cases hic : id = cur
          · subst hic
            rename_i hcur
            rw [h] at hcur
            simp at hcur
          · rw [lookupTerm_setTerm_ne bm id cur _ hic]
            exact h
        · exact h
      refine ih _ bb id t ?_ (fun p hp => hne p (List.mem_cons_of_mem _ hp))
      rw [lookupTerm_setTerm_ne _ id bb _ hid_bb]
      exact h1

theorem stubPass_spec (positioned : List Nat) :
    ∀ (labels : List (Nat × Nat)) (bm : List (Nat × Option Term)) (cur : Nat),
    List.Pairwise
      (fun p q => p.1 ∉ positioned → q.1 ∉ positioned → p.2 ≠ q.2) labels →
    (∀ p ∈ labels, p.1 ∉ positioned → lookupTerm bm p.2 = some none) →
    (∀ p ∈ labels, p.1 ∉ positioned → cur ≠ p.2) →
    ∀ p ∈ labels, p.1 ∉ positioned →
      lookupTerm (stubPass positioned labels bm cur).1 p.2 =
        some (some (Term.retConst p.1)) := by
  intro labels
  induction labels with
  | nil => intro bm cur _ _ _ p hp; simp at hp
  | cons q rest ih =>
    intro bm cur hpw hnone hcur p hp hpos
    obtain ⟨qpos, qbb⟩ := q
    obtain ⟨hhead, htail⟩ := List.pairwise_cons.mp hpw
    unfold stubPass
    by_cases hq : qpos ∈ positioned
    · rw [if_pos hq]
      rcases List.mem_cons.mp hp with heq | hmem
      · rw [heq] at hpos
        exact absurd hq hpos
      · exact ih bm cur htail
          (fun r hr => hnone r (List.mem_cons_of_mem _ hr))
          (fun r hr => hcur r (List.mem_cons_of_mem _ hr)) p hmem hpos
    · rw [if_neg hq]
      dsimp only
      have hcur_qbb : cur ≠ qbb := hcur (qpos, qbb) (List.mem_cons_self _ _) hq
      have hbm1 : ∀ r2 : Nat, r2 ≠ cur →
          lookupTerm
            (if lookupTerm bm cur = some none then setTerm bm cur (Term.br qbb) else bm)
            r2 = lookupTerm bm r2 := by
        intro r2 hr2
        split
        · exact lookupTerm_setTerm_ne bm r2 cur _ hr2
        · rfl
      rcases List.mem_cons.mp hp with heq | hmem
      · subst heq
        apply stubPass_preserve positioned rest _ qbb qbb (Term.retConst qpos) ?_ ?_
        · rw [lookupTerm_setTerm_self]
          rw [hbm1 qbb (Ne.symm hcur_qbb)]
          rw [hnone (qpos, qbb) (List.mem_cons_self _ _) hq]
          rfl
        · intro r hr hrpos
          exact hhead r hr hq hrpos
      · refine ih _ qbb htail ?_ ?_ p hmem hpos
        · intro r hr hrpos
          have hrq : r.2 ≠ qbb := fun hh => hhead r hr hq hrpos hh.symm
          rw [lookupTerm_setTerm_ne _ r.2 qbb _ hrq]
          rw [hbm1 r.2 (fun hh => hcur r (List.mem_cons_of_mem _ hr) hrpos hh.symm)]
          exact hnone r (List.mem_cons_of_mem _ hr) hrpos
        · intro r hr hrpos
          exact hhead r hr hq hrpos

/-- C2: after loop emission, `gen_body`'s final pass gives every scanned jump
target that was never positioned a stub block returning the constant i32
equal to that target pc, and `gen_code_for_loop`'s fill gives every block
still lacking a terminator an unconditional return of the constant `end`;
hence every block of the compiled loop function ends in a terminator, the
synthesized returns all carrying a bytecode pc at which interpretation
resumes.  The post-emission state is abstract: the hypotheses record that
distinct unpositioned labels own distinct, still-empty blocks and that the
builder is not positioned at any of them — invariants of the emission loop,
which positions a label's block only when marking it positioned. -/
theorem loop_exit_stubs (labels : List (Nat × Nat)) (positioned : List Nat)
    (bm : List (Nat × Option Term)) (cur endpc : Nat)
    (hpw : List.Pairwise
      (fun p q => p.1 ∉ positioned → q.1 ∉ positioned → p.2 ≠ q.2) labels)
    (hnone : ∀ p ∈ labels, p.1 ∉ positioned → lookupTerm bm p.2 = some none)
    (hcur : ∀ p ∈ labels, p.1 ∉ positioned → cur ≠ p.2) :
    (∀ p ∈ labels, p.1 ∉ positioned →
      lookupTerm (fillPass endpc (stubPass positioned labels bm cur).1) p.2 =
        some (some (Term.retConst p.1))) ∧
    (∀ id, (id, (none : Option Term)) ∈ (stubPass positioned labels bm cur).1 →
      (id, some (Term.retConst endpc)) ∈
        fillPass endpc (stubPass positioned labels bm cur).1) ∧
    (∀ b ∈ fillPass endpc (stubPass positioned labels bm cur).1,
      b.2.isSome = true) := by
  refine ⟨?_, ?_, ?_⟩
  · intro p hp hpos
    rw [lookupTerm_fillPass,
      stubPass_spec positioned labels bm cur hpw hnone hcur p hp hpos]
    rfl
  · intro id hmem
    unfold fillPass
    exact List.mem_map.mpr ⟨(id, none), hmem, rfl⟩
  · intro b hb
    unfold fillPass at hb
    rcases List.mem_map.mp hb with ⟨a, _, rfl⟩
    rfl

theorem loop_exit_stubs_witness :
    lookupTerm
      (fillPass 30
        (stubPass [10] [(10, 2), (20, 3)]
          [(0, none), (2, some (Term.br 0)), (3, none), (4, none)] 0).1) 3 =
      some (some (Term.retConst 20)) :=
  (loop_exit_stubs [(10, 2), (20, 3)] [10]
    [(0, none), (2, some (Term.br 0)), (3, none), (4, none)] 0 30
    (by decide) (by decide) (by decide)).1 (20, 3) (by decide) (by decide)

end Rapidus
